import Mathlib

/-!
Verification of the receipt-ledger core of `meowmung-ledger`.

The repository exposes the same two core functions through three transports
(`application_connect_api.py`, `application_connect_RESTful_API.py`,
`application_connect_gRPC_API.py`); the function bodies are character-for-
character identical across the three files, so a single embedding covers all
of them:

* `combine_json_outputs(json_outputs, logger)` — the Reconciler: folds a list
  of per-image JSON records into one combined record;
* the reply-handling tail of `process_image` — the Extractor's parse step:
  strip a ```json code fence, `json.loads` the rest, wrap any failure in an
  HTTP 500 `HTTPException`.

Python values flowing through this code are JSON-shaped dynamic values; they
are embedded as `PyVal`.  A Python `dict` record is embedded as a structure of
`Option PyVal` fields, `Option.none` meaning "key absent" (so a present
`null` is `some PyVal.none`, exactly the distinction `dict.get` sees).
-/

/-- Embedding of the JSON-shaped Python values handled by the application:
`None`, booleans, integers, strings, lists and (string-keyed) dicts.
Floats do not occur in the receipt schema and are omitted. -/
inductive PyVal where
  | none
  | bool (b : Bool)
  | int (n : Int)
  | str (s : String)
  | list (l : List PyVal)
  | dict (fields : List (String × PyVal))

/-- Python truthiness (`bool(v)`) for the embedded values: `None`, `False`,
`0`, `""`, `[]` and `{}` are falsy, everything else is truthy.  This is the
test performed by `if data.get("total_amount"):` and
`if not combined_data["date"] and data.get("date"):` in
`combine_json_outputs`. -/
def truthy : PyVal → Bool
  | PyVal.none => false
  | PyVal.bool b => b
  | PyVal.int n => n != 0
  | PyVal.str s => s != ""
  | PyVal.list l => !l.isEmpty
  | PyVal.dict f => !f.isEmpty

/-- Python iteration over a value, as consumed by `list.extend`:
lists yield their elements, strings yield their one-character substrings,
dicts yield their keys; `None`, booleans and integers are not iterable and
raise `TypeError`. -/
def iterElems : PyVal → Except Unit (List PyVal)
  | PyVal.list l => Except.ok l
  | PyVal.str s => Except.ok (s.data.map (fun c => PyVal.str (String.mk [c])))
  | PyVal.dict f => Except.ok (f.map (fun kv => PyVal.str kv.fst))
  | _ => Except.error ()

/-- A per-image extraction record as `combine_json_outputs` reads it: a dict
from which only the keys `"date"`, `"location"`, `"items"`,
`"total_amount"` are consulted.  Each field is `Option.none` when the key is
absent from the dict and `some v` when it is present with value `v`
(possibly `some PyVal.none`, i.e. present-but-`null`). -/
structure ReceiptRecord where
  date : Option PyVal
  location : Option PyVal
  items : Option PyVal
  total_amount : Option PyVal

/-- The accumulator dict `combined_data` of `combine_json_outputs`.  All four
keys are always present (they are written in the initializing literal), and
`"items"` always holds a Python list, so it is embedded as `List PyVal`. -/
structure CombinedRecord where
  date : PyVal
  location : PyVal
  items : List PyVal
  total_amount : PyVal

/-- `data.get(key)`: the value of an optional field, `None` when the key is
absent. -/
def getKey (f : Option PyVal) : PyVal := f.getD PyVal.none

/-- The first-write-wins update used for the `date` and `location` keys of
`combine_json_outputs`:
`if not combined_data[k] and data.get(k): combined_data[k] = data[k]`. -/
def firstWriteUpd (cur v : PyVal) : PyVal :=
  if !(truthy cur) && truthy v then v else cur

/-- The last-write-wins update used for the `total_amount` key of
`combine_json_outputs`:
`if data.get("total_amount"): combined_data["total_amount"] = data["total_amount"]`.
Note the guard is Python truthiness, not an `is not None` test. -/
def lastWriteUpd (cur v : PyVal) : PyVal :=
  if truthy v then v else cur

/-- One iteration of the `for data in json_outputs:` loop of
`combine_json_outputs`.  The `items` line
`combined_data["items"].extend(data.get("items", []))` iterates the value of
the `"items"` key (defaulting to `[]` only when the key is absent) and
raises `TypeError` when that value is not iterable; the raise is embedded as
`Except.error`. -/
def combineStep (acc : CombinedRecord) (data : ReceiptRecord) : Except Unit CombinedRecord :=
  let d := firstWriteUpd acc.date (getKey data.date)
  let l := firstWriteUpd acc.location (getKey data.location)
  match iterElems (data.items.getD (PyVal.list [])) with
  | Except.error e => Except.error e
  | Except.ok xs =>
      Except.ok { date := d, location := l, items := acc.items ++ xs,
                  total_amount := lastWriteUpd acc.total_amount (getKey data.total_amount) }

/-- The initializing literal of `combine_json_outputs`:
`combined_data = {"date": None, "location": None, "items": [], "total_amount": None}`. -/
def emptyCombined : CombinedRecord :=
  { date := PyVal.none, location := PyVal.none, items := [], total_amount := PyVal.none }

/-- `combine_json_outputs(json_outputs, logger)` from
`application_connect_api.py` (the `logger` argument is never used by the
body and is omitted).  A `TypeError` escaping the loop is embedded as
`Except.error`. -/
def combine_json_outputs (json_outputs : List ReceiptRecord) : Except Unit CombinedRecord :=
  json_outputs.foldlM combineStep emptyCombined

/-- The Python-list contribution of one record to `combined_data["items"]`
(what `data.get("items", [])` yields to `extend`), in the non-raising case. -/
def itemsOf (r : ReceiptRecord) : List PyVal :=
  ((iterElems (r.items.getD (PyVal.list []))).toOption).getD []

/-- A record whose `"items"` value can be fed to `list.extend` without a
`TypeError`: the key is absent, or its value is iterable. -/
def itemsIterable (r : ReceiptRecord) : Bool :=
  (iterElems (r.items.getD (PyVal.list []))).isOk

/-- A record whose `"items"` key is absent or holds an actual list — the
shape Extractor's contract promises. -/
def itemsWellFormed (r : ReceiptRecord) : Bool :=
  match r.items with
  | Option.none => true
  | some (PyVal.list _) => true
  | some _ => false

/-- The `"items"` list of a record, `[]` when the key is absent (the shape
guaranteed by `itemsWellFormed`). -/
def itemsListOf (r : ReceiptRecord) : List PyVal :=
  match r.items with
  | some (PyVal.list l) => l
  | _ => []

/- ### Specification-side merge functions

These definitions follow the wording of the specification ("the first record
whose `date` is non-null and non-empty", "the last record whose
`total_amount` is non-null"), to be compared with what the code computes. -/


/-- Spec wording: a value that is "non-null" (`null`/absent is the only
empty case the spec's P2 admits for `total_amount`). -/
def isNonNull : PyVal → Bool
  | PyVal.none => false
  | _ => true

/-- Spec wording: a value that is "non-null and non-empty" (for the
string-or-null `date` and `location` fields the only empty values are
`null` and `""`). -/
def specNonEmpty : PyVal → Bool
  | PyVal.none => false
  | PyVal.str s => s != ""
  | _ => true

/-- A field value of the string-or-null shape the Extractor contract gives
`date` and `location`. -/
def strOrNull : PyVal → Bool
  | PyVal.none => true
  | PyVal.str _ => true
  | _ => false

/-- Spec P2: the `total_amount` of the last record (in input order) whose
`total_amount` is non-null; `null` if none. -/
def lastNonNullTotal (records : List ReceiptRecord) : PyVal :=
  match records.reverse.find? (fun r => isNonNull (getKey r.total_amount)) with
  | some r => getKey r.total_amount
  | Option.none => PyVal.none

/-- The value the code actually keeps for `total_amount`: that of the last
record (in input order) whose `total_amount` is truthy; `null` if none. -/
def lastTruthyTotal (records : List ReceiptRecord) : PyVal :=
  match records.reverse.find? (fun r => truthy (getKey r.total_amount)) with
  | some r => getKey r.total_amount
  | Option.none => PyVal.none

/-- Spec P1: the first non-null, non-empty value in a list of field values;
`null` if none. -/
def firstNonEmpty (vals : List PyVal) : PyVal :=
  match vals.find? specNonEmpty with
  | some v => v
  | Option.none => PyVal.none

/- ### Claims about the Reconciler -/


/-- Concrete input refuting C1: a single record whose `total_amount` is `0`. -/
def zeroTotalRecord : ReceiptRecord :=
  { date := Option.none, location := Option.none, items := Option.none,
    total_amount := some (PyVal.int 0) }

/-- Concrete merge input for the amended C1: totals `5` then `0`; the `0`
does not overwrite, so the combined total is `5`. -/
def totalsFiveZero : List ReceiptRecord :=
  [{ date := Option.none, location := Option.none, items := Option.none,
     total_amount := some (PyVal.int 5) },
   { date := Option.none, location := Option.none, items := Option.none,
     total_amount := some (PyVal.int 0) }]

/-- Concrete merge input for C2: an empty-string date and a null location in
the first record are skipped; the second record's values win. -/
def dateLocRecords : List ReceiptRecord :=
  [{ date := some (PyVal.str ""), location := some PyVal.none,
     items := Option.none, total_amount := Option.none },
   { date := some (PyVal.str "2024-04-25"), location := some (PyVal.str "ABC"),
     items := Option.none, total_amount := Option.none }]

def dateLocCombined : CombinedRecord :=
  { date := PyVal.str "2024-04-25", location := PyVal.str "ABC", items := [],
    total_amount := PyVal.none }

/-- Concrete merge input for C3: item lists `[a]`, absent, `[b, c]`
concatenate to `[a, b, c]`. -/
def itemsRecords : List ReceiptRecord :=
  [{ date := Option.none, location := Option.none,
     items := some (PyVal.list [PyVal.str "a"]), total_amount := Option.none },
   { date := Option.none, location := Option.none,
     items := Option.none, total_amount := Option.none },
   { date := Option.none, location := Option.none,
     items := some (PyVal.list [PyVal.str "b", PyVal.str "c"]),
     total_amount := Option.none }]

/-- Concrete input refuting C5: a record whose `"items"` key is present with
value `null`. -/
def nullItemsRecord : ReceiptRecord :=
  { date := Option.none, location := Option.none, items := some PyVal.none,
    total_amount := Option.none }

/-- Concrete input for the amended C5: a thoroughly malformed record (an
integer `date`, a list `total_amount`, `"items"` absent) is still merged
without any error. -/
def malformedRecord : ReceiptRecord :=
  { date := some (PyVal.int 7), location := some (PyVal.bool true),
    items := Option.none, total_amount := some (PyVal.list [PyVal.none]) }

/-- Concrete merge input for C6, reused twice. -/
def detRecords : List ReceiptRecord :=
  [{ date := some (PyVal.str "2024-04-25"), location := Option.none,
     items := some (PyVal.list [PyVal.str "x"]), total_amount := some (PyVal.int 3) }]

/- ### The Extractor's reply-handling step

`process_image` (lines 124-144 of `application_connect_api.py`, identical in
the RESTful and gRPC variants) post-processes the model's raw reply text:

    if answer.startswith("```json") and answer.endswith("```"):
        answer = answer[len("```json") : -len("```")].strip()
    answer_json = json.loads(answer)
    return answer_json

wrapped in a `try/except` that converts any exception into
`HTTPException(status_code=500, detail=...)`.

`json.loads` is modelled by a lexer/parser pair over the JSON subset the
receipt schema uses: `null`, `true`, `false`, integers, strings (with the
single-character escapes, not `\u`), arrays and objects — no floats,
exponents, `NaN`/`Infinity`, or duplicate-key folding. -/


/-- The whitespace characters of the JSON grammar (what `json.loads` skips
between tokens): space, tab, newline, carriage return. -/
def jsonWs (c : Char) : Bool :=
  c = ' ' || c = '\t' || c = '\n' || c = '\r'

/-- The ASCII whitespace stripped by Python's `str.strip()`: the JSON
whitespace plus vertical tab and form feed. -/
def pyWs (c : Char) : Bool :=
  c = ' ' || c = '\t' || c = '\n' || c = '\r' || c = '\x0b' || c = '\x0c'

/-- Strip characters satisfying `p` from both ends of a character list. -/
def stripL (p : Char → Bool) (cs : List Char) : List Char :=
  ((cs.dropWhile p).reverse.dropWhile p).reverse

/-- Python `s.strip()` (on the ASCII whitespace). -/
def pyStrip (s : String) : String := String.mk (stripL pyWs s.data)

/-- Stripping only the JSON whitespace characters from both ends. -/
def jsonStrip (s : String) : String := String.mk (stripL jsonWs s.data)

/-- JSON tokens. -/
inductive Tok where
  | lbrace | rbrace | lbrack | rbrack | comma | colon
  | str (s : String)
  | num (n : Int)
  | tnull | ttrue | tfalse

/-- String-literal escapes accepted by the JSON grammar (minus `\u`). -/
def escChar? (c : Char) : Option Char :=
  if c = '"' then some '"'
  else if c = '\\' then some '\\'
  else if c = '/' then some '/'
  else if c = 'n' then some '\n'
  else if c = 't' then some '\t'
  else if c = 'r' then some '\r'
  else if c = 'b' then some '\x08'
  else if c = 'f' then some '\x0c'
  else Option.none

/-- Integer value of a digit run. -/
def digitsVal (ds : List Char) : Int :=
  ds.foldl (fun a c => a * 10 + (Int.ofNat (c.toNat - 48))) 0

/-- A digit run that is a valid JSON integer literal: non-empty, and no
leading zero unless it is the single digit `0`. -/
def validDigits : List Char → Bool
  | [] => false
  | [c] => c.isDigit
  | c :: rest => c.isDigit && !(c = '0') && rest.all Char.isDigit

/-- Convert a number buffer (optional minus sign and digits) to a token. -/
def numTok? (buf : List Char) : Option Tok :=
  match buf with
  | '-' :: ds => if validDigits ds then some (Tok.num (-(digitsVal ds))) else Option.none
  | ds => if validDigits ds then some (Tok.num (digitsVal ds)) else Option.none

/-- Convert a keyword buffer to a token (`null`, `true`, `false`). -/
def wordTok? (buf : List Char) : Option Tok :=
  if String.mk buf = "null" then some Tok.tnull
  else if String.mk buf = "true" then some Tok.ttrue
  else if String.mk buf = "false" then some Tok.tfalse
  else Option.none

/-- Lexer state: between tokens, inside a string literal, after a backslash
in a string literal, inside a number, inside a keyword, or failed. -/
inductive LexState where
  | betw (toks : List Tok)
  | instr (toks : List Tok) (buf : List Char)
  | esc (toks : List Tok) (buf : List Char)
  | innum (toks : List Tok) (buf : List Char)
  | inword (toks : List Tok) (buf : List Char)
  | failed

/-- Dispatch on a character read between tokens. -/
def stepBetw (toks : List Tok) (c : Char) : LexState :=
  if jsonWs c then LexState.betw toks
  else if c = '\x7b' then LexState.betw (toks ++ [Tok.lbrace])
  else if c = '\x7d' then LexState.betw (toks ++ [Tok.rbrace])
  else if c = '[' then LexState.betw (toks ++ [Tok.lbrack])
  else if c = ']' then LexState.betw (toks ++ [Tok.rbrack])
  else if c = ',' then LexState.betw (toks ++ [Tok.comma])
  else if c = ':' then LexState.betw (toks ++ [Tok.colon])
  else if c = '"' then LexState.instr toks []
  else if c.isDigit || c = '-' then LexState.innum toks [c]
  else if c.isAlpha then LexState.inword toks [c]
  else LexState.failed

/-- One character of JSON lexing. -/
def lexStep (st : LexState) (c : Char) : LexState :=
  match st with
  | LexState.betw toks => stepBetw toks c
  | LexState.instr toks buf =>
      if c = '"' then LexState.betw (toks ++ [Tok.str (String.mk buf)])
      else if c = '\\' then LexState.esc toks buf
      else if c.toNat < 32 then LexState.failed
      else LexState.instr toks (buf ++ [c])
  | LexState.esc toks buf =>
      match escChar? c with
      | some d => LexState.instr toks (buf ++ [d])
      | Option.none => LexState.failed
  | LexState.innum toks buf =>
      if c.isDigit then LexState.innum toks (buf ++ [c])
      else
        match numTok? buf with
        | some t => stepBetw (toks ++ [t]) c
        | Option.none => LexState.failed
  | LexState.inword toks buf =>
      if c.isAlpha then LexState.inword toks (buf ++ [c])
      else
        match wordTok? buf with
        | some t => stepBetw (toks ++ [t]) c
        | Option.none => LexState.failed
  | LexState.failed => LexState.failed

/-- Close the lexer at end of input. -/
def lexFinalize : LexState → Except Unit (List Tok)
  | LexState.betw toks => Except.ok toks
  | LexState.instr _ _ => Except.error ()
  | LexState.esc _ _ => Except.error ()
  | LexState.innum toks buf =>
      match numTok? buf with
      | some t => Except.ok (toks ++ [t])
      | Option.none => Except.error ()
  | LexState.inword toks buf =>
      match wordTok? buf with
      | some t => Except.ok (toks ++ [t])
      | Option.none => Except.error ()
  | LexState.failed => Except.error ()

/-- Tokenize a JSON text. -/
def lexJson (cs : List Char) : Except Unit (List Tok) :=
  lexFinalize (cs.foldl lexStep (LexState.betw []))

mutual

/-- Parse one JSON value from a token list (fuel-bounded recursive descent,
mirroring `json.decoder`). -/
def parseVal : Nat → List Tok → Except Unit (PyVal × List Tok)
  | 0, _ => Except.error ()
  | fuel + 1, ts =>
    match ts with
    | [] => Except.error ()
    | Tok.tnull :: rest => Except.ok (PyVal.none, rest)
    | Tok.ttrue :: rest => Except.ok (PyVal.bool true, rest)
    | Tok.tfalse :: rest => Except.ok (PyVal.bool false, rest)
    | Tok.num n :: rest => Except.ok (PyVal.int n, rest)
    | Tok.str s :: rest => Except.ok (PyVal.str s, rest)
    | Tok.lbrack :: Tok.rbrack :: rest => Except.ok (PyVal.list [], rest)
    | Tok.lbrack :: rest => parseArr fuel rest []
    | Tok.lbrace :: Tok.rbrace :: rest => Except.ok (PyVal.dict [], rest)
    | Tok.lbrace :: rest => parseObj fuel rest []
    | _ => Except.error ()

/-- Parse the elements of a non-empty JSON array after `[`. -/
def parseArr : Nat → List Tok → List PyVal → Except Unit (PyVal × List Tok)
  | 0, _, _ => Except.error ()
  | fuel + 1, ts, acc =>
    match parseVal fuel ts with
    | Except.error e => Except.error e
    | Except.ok (v, rest) =>
      match rest with
      | Tok.comma :: rest2 => parseArr fuel rest2 (acc ++ [v])
      | Tok.rbrack :: rest2 => Except.ok (PyVal.list (acc ++ [v]), rest2)
      | _ => Except.error ()

/-- Parse the members of a non-empty JSON object after the opening brace. -/
def parseObj : Nat → List Tok → List (String × PyVal) → Except Unit (PyVal × List Tok)
  | 0, _, _ => Except.error ()
  | fuel + 1, ts, acc =>
    match ts with
    | Tok.str k :: Tok.colon :: rest =>
      match parseVal fuel rest with
      | Except.error e => Except.error e
      | Except.ok (v, rest2) =>
        match rest2 with
        | Tok.comma :: rest3 => parseObj fuel rest3 (acc ++ [(k, v)])
        | Tok.rbrace :: rest3 => Except.ok (PyVal.dict (acc ++ [(k, v)]), rest3)
        | _ => Except.error ()
    | _ => Except.error ()

end

/-- Parse a whole token list as one JSON value, requiring all tokens to be
consumed (`json.loads` raises "Extra data" otherwise). -/
def parseToks (ts : List Tok) : Except Unit PyVal :=
  match parseVal (2 * ts.length + 2) ts with
  | Except.ok (v, []) => Except.ok v
  | Except.ok (_, _ :: _) => Except.error ()
  | Except.error e => Except.error e

/-- Model of `json.loads` on the JSON subset used by the receipt schema. -/
def jsonLoads (s : String) : Except Unit PyVal :=
  match lexJson s.data with
  | Except.error e => Except.error e
  | Except.ok toks => parseToks toks

/-- Left-to-right comparison of a pattern against the start of a list. -/
def startsWithL : List Char → List Char → Bool
  | [], _ => true
  | _ :: _, [] => false
  | p :: ps, c :: cs => p == c && startsWithL ps cs

/-- Comparison of a pattern against the end of a list. -/
def endsWithL (p cs : List Char) : Bool := startsWithL p.reverse cs.reverse

/-- The opening fence marker. -/
def fenceOpen : List Char := "```json".data

/-- The closing fence marker. -/
def fenceClose : List Char := "```".data

/-- Drop the last `n` characters (the Python slice `[: -n]`). -/
def dropEndN (n : Nat) (cs : List Char) : List Char := cs.take (cs.length - n)

/-- The fence-stripping statement of `process_image`:
`if answer.startswith("```json") and answer.endswith("```"): answer = answer[len("```json") : -len("```")].strip()`. -/
def stripFence (answer : String) : String :=
  if startsWithL fenceOpen answer.data && endsWithL fenceClose answer.data then
    pyStrip (String.mk (dropEndN 3 (answer.data.drop 7)))
  else answer

/-- A reply text wrapped in a ```json code fence. -/
def fenceWrap (s : String) : String := "```json" ++ s ++ "```"

/-- Outcome of `process_image`'s reply handling: a parsed value returned to
the caller, or an `HTTPException` with the given status code (the `except`
clause always uses 500 and attaches the cause as `detail`). -/
inductive ExtractResult where
  | ok (v : PyVal)
  | httpError (status : Nat)

/-- The reply-handling tail of `process_image` as a function of the raw
model reply `answer`: strip the ```json fence if present, `json.loads` the
result, and convert a parse failure into an HTTP 500 error. -/
def process_image_reply (answer : String) : ExtractResult :=
  match jsonLoads (stripFence answer) with
  | Except.ok v => ExtractResult.ok v
  | Except.error _ => ExtractResult.httpError 500

/-- Inner text of a typical fenced model reply. -/
def fencedReplyBody : String := "\n\x7b\"a\": 1\x7d\n"

/- ### Frame property of the combine loop

The only mutation `combine_json_outputs` performs is
`combined_data["items"].extend(...)`, which targets the *fresh* list
allocated in the `combined_data` literal — never an input record or an
input record's `items` list.  To state this, the mutable Python list
objects are made explicit: a heap `cells : List (List PyVal)` holds every
list object, records refer to their `items` list by cell index, and the
combined record's `items` is a fresh cell appended to the heap.  The loop
body is the same per-field logic as `combineStep`, with `extend` acting on
the heap. -/


/-- A per-image record whose `items` list lives in the heap: `itemsRef` is
the index of its list object (`Option.none` when the `"items"` key is
absent). -/
structure HRecord where
  date : Option PyVal
  location : Option PyVal
  itemsRef : Option Nat
  total_amount : Option PyVal

/-- The combined record with its `items` list held in the heap at
`itemsRef`. -/
structure HCombined where
  date : PyVal
  location : PyVal
  itemsRef : Nat
  total_amount : PyVal

/-- `cells[target].extend(xs)`: mutate one list object in the heap. -/
def extendCell (cells : List (List PyVal)) (target : Nat) (xs : List PyVal) :
    List (List PyVal) :=
  cells.set target (cells.getD target [] ++ xs)

/-- One iteration of the `for data in json_outputs:` loop in the heap
model: the three field updates are the pure ones of `combineStep`, and the
`extend` call mutates the combined record's own cell `newRef`, reading the
input record's list from the heap. -/
def hStep (newRef : Nat) (st : List (List PyVal) × HCombined) (data : HRecord) :
    List (List PyVal) × HCombined :=
  (extendCell st.1 newRef
     (match data.itemsRef with
      | some i => st.1.getD i []
      | Option.none => []),
   { date := firstWriteUpd st.2.date (getKey data.date),
     location := firstWriteUpd st.2.location (getKey data.location),
     itemsRef := newRef,
     total_amount := lastWriteUpd st.2.total_amount (getKey data.total_amount) })

/-- `combine_json_outputs` in the heap model: allocate a fresh empty list
object for `combined_data["items"]` (the literal `[]`), then run the loop. -/
def combine_json_outputs_heap (cells : List (List PyVal)) (records : List HRecord) :
    List (List PyVal) × HCombined :=
  records.foldl (hStep cells.length)
    (cells ++ [[]],
     { date := PyVal.none, location := PyVal.none, itemsRef := cells.length,
       total_amount := PyVal.none })

/-- Concrete heap for the C10 witness: two list objects, referenced by two
records. -/
def witnessCells : List (List PyVal) := [[PyVal.str "a"], [PyVal.str "b", PyVal.str "c"]]

def witnessHRecords : List HRecord :=
  [{ date := some (PyVal.str "2024-04-25"), location := Option.none,
     itemsRef := some 0, total_amount := some (PyVal.int 2) },
   { date := Option.none, location := some (PyVal.str "ABC"),
     itemsRef := some 1, total_amount := Option.none }]

/-- Read a heap record back as a plain record (its `items` value is the
list object its `itemsRef` points to). -/
def toReceipt (cells : List (List PyVal)) (hr : HRecord) : ReceiptRecord :=
  { date := hr.date, location := hr.location,
    items := hr.itemsRef.map (fun i => PyVal.list (cells.getD i [])),
    total_amount := hr.total_amount }

/- ### Characterization of the combine loop -/


theorem combine_fold (records : List ReceiptRecord) (acc c : CombinedRecord)
    (h : List.foldlM combineStep acc records = Except.ok c) :
    c.date = records.foldl (fun cur r => firstWriteUpd cur (getKey r.date)) acc.date ∧
    c.location = records.foldl (fun cur r => firstWriteUpd cur (getKey r.location)) acc.location ∧
    c.items = acc.items ++ (records.map itemsOf).flatten ∧
    c.total_amount = records.foldl (fun cur r => lastWriteUpd cur (getKey r.total_amount)) acc.total_amount := by
  induction records generalizing acc with
  | nil =>
    simp only [List.foldlM] at h
    cases h
    simp
  | cons r rs ih =>
    simp only [List.foldlM] at h
    unfold combineStep at h
    cases hiter : iterElems (r.items.getD (PyVal.list [])) with
    | error e =>
      rw [hiter] at h
      simp only [bind, Except.bind] at h
      exact absurd h (by simp)
    | ok xs =>
      rw [hiter] at h
      simp only [bind, Except.bind] at h
      obtain ⟨h1, h2, h3, h4⟩ := ih _ h
      refine ⟨?_, ?_, ?_, ?_⟩
      · simpa using h1
      · simpa using h2
      · simp only [List.map_cons, List.flatten_cons]
        rw [h3]
        simp [itemsOf, hiter, Except.toOption, List.append_assoc]
      · simpa using h4

theorem combine_ok (records : List ReceiptRecord) (acc : CombinedRecord)
    (h : ∀ r ∈ records, itemsIterable r = true) :
    ∃ c, List.foldlM combineStep acc records = Except.ok c := by
  induction records generalizing acc with
  | nil => exact ⟨acc, rfl⟩
  | cons r rs ih =>
    have hr : itemsIterable r = true := h r (by simp)
    unfold itemsIterable at hr
    cases hiter : iterElems (r.items.getD (PyVal.list [])) with
    | error e => rw [hiter] at hr; simp [Except.isOk, Except.toBool] at hr
    | ok xs =>
      obtain ⟨c, hc⟩ := ih { date := firstWriteUpd acc.date (getKey r.date),
                             location := firstWriteUpd acc.location (getKey r.location),
                             items := acc.items ++ xs,
                             total_amount := lastWriteUpd acc.total_amount (getKey r.total_amount) }
        (fun r hr => h r (by simp [hr]))
      refine ⟨c, ?_⟩
      simp only [List.foldlM]
      unfold combineStep
      rw [hiter]
      simpa [bind, Except.bind] using hc

theorem foldl_lastWrite (f : ReceiptRecord → PyVal) (records : List ReceiptRecord) (t : PyVal) :
    records.foldl (fun cur r => lastWriteUpd cur (f r)) t =
      match records.reverse.find? (fun r => truthy (f r)) with
      | some r => f r
      | Option.none => t := by
  induction records using List.reverseRecOn with
  | nil => simp
  | append_singleton l a ih =>
    rw [List.foldl_append, List.reverse_append]
    simp only [List.foldl, List.reverse_singleton, List.singleton_append, List.find?]
    cases htr : truthy (f a) with
    | true => simp [lastWriteUpd, htr]
    | false =>
      simp only [lastWriteUpd, htr, Bool.false_eq_true, not_false_iff, ite_false]
      exact ih

theorem foldl_firstWrite_truthy (f : ReceiptRecord → PyVal) (records : List ReceiptRecord)
    (d : PyVal) (hd : truthy d = true) :
    records.foldl (fun cur r => firstWriteUpd cur (f r)) d = d := by
  induction records with
  | nil => rfl
  | cons r rs ih =>
    rw [List.foldl_cons]
    have h1 : firstWriteUpd d (f r) = d := by unfold firstWriteUpd; rw [hd]; rfl
    rw [h1]; exact ih

theorem foldl_firstWrite_none (f : ReceiptRecord → PyVal) (records : List ReceiptRecord) :
    records.foldl (fun cur r => firstWriteUpd cur (f r)) PyVal.none =
      match records.find? (fun r => truthy (f r)) with
      | some r => f r
      | Option.none => PyVal.none := by
  induction records with
  | nil => rfl
  | cons r rs ih =>
    rw [List.foldl_cons]
    cases htr : truthy (f r) with
    | true =>
      have h1 : firstWriteUpd PyVal.none (f r) = f r := by unfold firstWriteUpd; rw [htr]; rfl
      have h2 : List.find? (fun r => truthy (f r)) (r :: rs) = some r := by
        simp [List.find?, htr]
      rw [h1, foldl_firstWrite_truthy f rs _ htr, h2]
    | false =>
      have h1 : firstWriteUpd PyVal.none (f r) = PyVal.none := by
        unfold firstWriteUpd; rw [htr]; rfl
      have h2 : List.find? (fun r => truthy (f r)) (r :: rs) =
          List.find? (fun r => truthy (f r)) rs := by
        simp [List.find?, htr]
      rw [h1, h2]
      exact ih

theorem find?_congr_pred {α : Type} (p q : α → Bool) (l : List α) (h : ∀ x ∈ l, p x = q x) :
    l.find? p = l.find? q := by
  induction l with
  | nil => rfl
  | cons a l ih =>
    simp only [List.find?]
    rw [h a (by simp)]
    cases q a with
    | true => rfl
    | false => exact ih (fun x hx => h x (by simp [hx]))

theorem truthy_eq_specNonEmpty (v : PyVal) (h : strOrNull v = true) :
    truthy v = specNonEmpty v := by
  cases v <;> simp_all [strOrNull, truthy, specNonEmpty]

theorem firstNonEmpty_map (f : ReceiptRecord → PyVal) (records : List ReceiptRecord) :
    firstNonEmpty (records.map f) =
      match records.find? (fun r => specNonEmpty (f r)) with
      | some r => f r
      | Option.none => PyVal.none := by
  unfold firstNonEmpty
  induction records with
  | nil => rfl
  | cons r rs ih =>
    simp only [List.map_cons, List.find?]
    cases h : specNonEmpty (f r) with
    | true => rfl
    | false => exact ih

theorem itemsOf_eq_itemsListOf (r : ReceiptRecord) (h : itemsWellFormed r = true) :
    itemsOf r = itemsListOf r := by
  unfold itemsWellFormed at h
  unfold itemsOf itemsListOf
  cases hri : r.items with
  | none => rfl
  | some v => rw [hri] at h; cases v <;> simp_all [iterElems, Except.toOption]

theorem itemsIterable_of_wellFormed (r : ReceiptRecord) (h : itemsWellFormed r = true) :
    itemsIterable r = true := by
  unfold itemsWellFormed at h
  unfold itemsIterable
  cases hri : r.items with
  | none => rfl
  | some v => rw [hri] at h; cases v <;> simp_all [iterElems, Except.isOk, Except.toBool]

/-- C1 fails on the code: for the input `[{"total_amount": 0}]` the last
record with a non-null `total_amount` has total `0`, but
`combine_json_outputs` leaves the combined `total_amount` at `null`,
because the guard `if data.get("total_amount"):` is a truthiness test and
`0` is falsy in Python. -/
theorem combine_total_zero_counterexample :
    ¬ ((combine_json_outputs [zeroTotalRecord]).map CombinedRecord.total_amount =
        Except.ok (lastNonNullTotal [zeroTotalRecord])) := by
  intro h
  have h2 : (Except.ok PyVal.none : Except Unit PyVal) = Except.ok (PyVal.int 0) := h
  exact PyVal.noConfusion (Except.ok.inj h2)

/-- C1 (amended): whenever `combine_json_outputs` returns a combined record,
its `total_amount` is the `total_amount` of the last record (in input
order) whose `total_amount` is truthy — non-null *and* non-zero/non-empty —
and `null` if there is none; a record whose `total_amount` is `0` is
treated as empty and does not overwrite. -/
theorem combine_total_lastTruthy (records : List ReceiptRecord) (c : CombinedRecord)
    (h : combine_json_outputs records = Except.ok c) :
    c.total_amount = lastTruthyTotal records := by
  have h4 := (combine_fold records emptyCombined c h).2.2.2
  rw [h4, foldl_lastWrite]
  rfl

theorem combine_total_lastTruthy_witness :
    combine_json_outputs totalsFiveZero =
      Except.ok { date := PyVal.none, location := PyVal.none, items := [],
                  total_amount := PyVal.int 5 } ∧
    ({ date := PyVal.none, location := PyVal.none, items := [],
       total_amount := PyVal.int 5 } : CombinedRecord).total_amount =
      lastTruthyTotal totalsFiveZero :=
  ⟨rfl, combine_total_lastTruthy totalsFiveZero
    { date := PyVal.none, location := PyVal.none, items := [],
      total_amount := PyVal.int 5 } rfl⟩

/-- C2: whenever `combine_json_outputs` returns a combined record and every
input `date`/`location` value has the string-or-null shape the Extractor
contract guarantees, the combined `date` is the `date` of the first record
(in input order) whose `date` is non-null and non-empty (`null` if none),
and likewise for `location`. -/
theorem combine_date_location_first (records : List ReceiptRecord) (c : CombinedRecord)
    (hshape : ∀ r ∈ records, strOrNull (getKey r.date) = true ∧
      strOrNull (getKey r.location) = true)
    (h : combine_json_outputs records = Except.ok c) :
    c.date = firstNonEmpty (records.map (fun r => getKey r.date)) ∧
    c.location = firstNonEmpty (records.map (fun r => getKey r.location)) := by
  obtain ⟨h1, h2, _, _⟩ := combine_fold records emptyCombined c h
  constructor
  · rw [h1]
    have e1 : emptyCombined.date = PyVal.none := rfl
    rw [e1, foldl_firstWrite_none, firstNonEmpty_map,
      find?_congr_pred (fun r => truthy (getKey r.date))
        (fun r => specNonEmpty (getKey r.date)) records
        (fun r hr => truthy_eq_specNonEmpty _ (hshape r hr).1)]
  · rw [h2]
    have e2 : emptyCombined.location = PyVal.none := rfl
    rw [e2, foldl_firstWrite_none, firstNonEmpty_map,
      find?_congr_pred (fun r => truthy (getKey r.location))
        (fun r => specNonEmpty (getKey r.location)) records
        (fun r hr => truthy_eq_specNonEmpty _ (hshape r hr).2)]

theorem combine_date_location_first_witness :
    (∀ r ∈ dateLocRecords, strOrNull (getKey r.date) = true ∧
      strOrNull (getKey r.location) = true) ∧
    combine_json_outputs dateLocRecords = Except.ok dateLocCombined ∧
    (dateLocCombined.date = firstNonEmpty (dateLocRecords.map (fun r => getKey r.date)) ∧
     dateLocCombined.location =
       firstNonEmpty (dateLocRecords.map (fun r => getKey r.location))) :=
  ⟨by decide, rfl, combine_date_location_first dateLocRecords dateLocCombined (by decide) rfl⟩

/-- C3: when every record's `"items"` key is absent or holds a list (the
shape Extractor guarantees), `combine_json_outputs` succeeds and its
combined `items` is exactly the ordered concatenation of the records'
`items` lists, whose length is the sum of the input lists' lengths. -/
theorem combine_items_concat (records : List ReceiptRecord)
    (hshape : ∀ r ∈ records, itemsWellFormed r = true) :
    (combine_json_outputs records).map CombinedRecord.items =
      Except.ok ((records.map itemsListOf).flatten) ∧
    ((records.map itemsListOf).flatten).length =
      (records.map (fun r => (itemsListOf r).length)).sum := by
  have hiter : ∀ r ∈ records, itemsIterable r = true :=
    fun r hr => itemsIterable_of_wellFormed r (hshape r hr)
  obtain ⟨c, hc⟩ := combine_ok records emptyCombined hiter
  have h3 := (combine_fold records emptyCombined c hc).2.2.1
  constructor
  · have hc2 : combine_json_outputs records = Except.ok c := hc
    rw [hc2]
    simp only [Except.map]
    rw [h3]
    have e3 : emptyCombined.items = [] := rfl
    rw [e3, List.nil_append,
      List.map_congr_left (fun r hr => itemsOf_eq_itemsListOf r (hshape r hr))]
  · rw [List.length_flatten, List.map_map]
    rfl

theorem combine_items_concat_witness :
    (∀ r ∈ itemsRecords, itemsWellFormed r = true) ∧
    ((combine_json_outputs itemsRecords).map CombinedRecord.items =
      Except.ok ((itemsRecords.map itemsListOf).flatten) ∧
     ((itemsRecords.map itemsListOf).flatten).length =
      (itemsRecords.map (fun r => (itemsListOf r).length)).sum) :=
  ⟨by decide, combine_items_concat itemsRecords (by decide)⟩

/-- C4: `combine_json_outputs` on the empty input returns exactly
`{date: null, location: null, items: [], total_amount: null}`. -/
theorem combine_empty_input :
    combine_json_outputs [] =
      Except.ok { date := PyVal.none, location := PyVal.none, items := [],
                  total_amount := PyVal.none } := rfl

/-- C5 fails on the code: for the input `[{"items": null}]`,
`data.get("items", [])` returns the stored `None` (the default applies only
when the key is absent), and `combined_data["items"].extend(None)` raises
`TypeError` — `combine_json_outputs` does not return a combined record. -/
theorem combine_raises_counterexample :
    combine_json_outputs [nullItemsRecord] = Except.error () := rfl

/-- C5 (amended): `combine_json_outputs` performs no shape validation and
never raises, *provided* every record's `"items"` value is absent or
iterable (a list, string or dict); a record whose `"items"` key holds a
non-iterable value (`null`, a number or a boolean) makes it raise
`TypeError`. -/
theorem combine_ok_of_iterable (records : List ReceiptRecord)
    (h : ∀ r ∈ records, itemsIterable r = true) :
    ∃ c, combine_json_outputs records = Except.ok c :=
  combine_ok records emptyCombined h

theorem combine_ok_of_iterable_witness :
    (∀ r ∈ [malformedRecord], itemsIterable r = true) ∧
    ∃ c, combine_json_outputs [malformedRecord] = Except.ok c :=
  ⟨by decide, combine_ok_of_iterable [malformedRecord] (by decide)⟩

/-- C6: `combine_json_outputs` is a pure function of its input value — it
reads no hidden state, so two invocations on equal input values return
equal results. -/
theorem combine_deterministic (r1 r2 : List ReceiptRecord) (h : r1 = r2) :
    combine_json_outputs r1 = combine_json_outputs r2 := by rw [h]

theorem combine_deterministic_witness :
    detRecords = detRecords ∧
    combine_json_outputs detRecords = combine_json_outputs detRecords :=
  ⟨rfl, combine_deterministic detRecords detRecords rfl⟩

/- ### Lexer whitespace lemmas -/


theorem lexFinalize_step_ws (st : LexState) (c : Char) (h : jsonWs c = true) :
    lexFinalize (lexStep st c) = lexFinalize st := by
  have hc : ((c = ' ' ∨ c = '\t') ∨ c = '\n') ∨ c = '\r' := by
    simpa [jsonWs] using h
  cases st with
  | betw toks => rcases hc with ((rfl | rfl) | rfl) | rfl <;> rfl
  | instr toks buf => rcases hc with ((rfl | rfl) | rfl) | rfl <;> rfl
  | esc toks buf => rcases hc with ((rfl | rfl) | rfl) | rfl <;> rfl
  | innum toks buf =>
    have h1 : lexStep (LexState.innum toks buf) c =
        (match numTok? buf with
         | some t => stepBetw (toks ++ [t]) c
         | Option.none => LexState.failed) := by
      rcases hc with ((rfl | rfl) | rfl) | rfl <;> rfl
    rw [h1]
    cases hn : numTok? buf with
    | some t =>
      have h2 : stepBetw (toks ++ [t]) c = LexState.betw (toks ++ [t]) := by
        rcases hc with ((rfl | rfl) | rfl) | rfl <;> rfl
      show lexFinalize (stepBetw (toks ++ [t]) c) = lexFinalize (LexState.innum toks buf)
      rw [h2]
      simp only [lexFinalize, hn]
    | none => simp only [lexFinalize, hn]
  | inword toks buf =>
    have h1 : lexStep (LexState.inword toks buf) c =
        (match wordTok? buf with
         | some t => stepBetw (toks ++ [t]) c
         | Option.none => LexState.failed) := by
      rcases hc with ((rfl | rfl) | rfl) | rfl <;> rfl
    rw [h1]
    cases hn : wordTok? buf with
    | some t =>
      have h2 : stepBetw (toks ++ [t]) c = LexState.betw (toks ++ [t]) := by
        rcases hc with ((rfl | rfl) | rfl) | rfl <;> rfl
      show lexFinalize (stepBetw (toks ++ [t]) c) = lexFinalize (LexState.inword toks buf)
      rw [h2]
      simp only [lexFinalize, hn]
    | none => simp only [lexFinalize, hn]
  | failed => rfl

theorem lexFinalize_foldl_ws (t : List Char) (st : LexState) (h : ∀ c ∈ t, jsonWs c = true) :
    lexFinalize (t.foldl lexStep st) = lexFinalize st := by
  induction t generalizing st with
  | nil => rfl
  | cons c cs ih =>
    rw [List.foldl_cons, ih _ (fun d hd => h d (by simp [hd])),
      lexFinalize_step_ws st c (h c (by simp))]

theorem foldl_lexStep_betw_ws (t : List Char) (toks : List Tok) (h : ∀ c ∈ t, jsonWs c = true) :
    t.foldl lexStep (LexState.betw toks) = LexState.betw toks := by
  induction t with
  | nil => rfl
  | cons c cs ih =>
    rw [List.foldl_cons]
    have h1 : lexStep (LexState.betw toks) c = LexState.betw toks := by
      show stepBetw toks c = LexState.betw toks
      unfold stepBetw
      rw [h c (by simp)]
      rfl
    rw [h1]
    exact ih (fun d hd => h d (by simp [hd]))

/-- Tokenizing is unaffected by surrounding JSON whitespace (the lexer skips
it between tokens and at either end). -/
theorem lexJson_strip (cs : List Char) : lexJson (stripL jsonWs cs) = lexJson cs := by
  unfold lexJson
  have e1 : cs.dropWhile jsonWs =
      stripL jsonWs cs ++ (List.takeWhile jsonWs (cs.dropWhile jsonWs).reverse).reverse := by
    unfold stripL
    conv_lhs => rw [← List.reverse_reverse (cs.dropWhile jsonWs)]
    rw [← List.reverse_append, List.takeWhile_append_dropWhile]
  have hws1 : ∀ c ∈ cs.takeWhile jsonWs, jsonWs c = true := fun c hc =>
    List.mem_takeWhile_imp hc
  have hws2 : ∀ c ∈ (List.takeWhile jsonWs (cs.dropWhile jsonWs).reverse).reverse,
      jsonWs c = true := by
    intro c hc
    rw [List.mem_reverse] at hc
    exact List.mem_takeWhile_imp hc
  calc lexFinalize ((stripL jsonWs cs).foldl lexStep (LexState.betw []))
      = lexFinalize ((List.takeWhile jsonWs (cs.dropWhile jsonWs).reverse).reverse.foldl
          lexStep ((stripL jsonWs cs).foldl lexStep (LexState.betw []))) := by
        rw [lexFinalize_foldl_ws _ _ hws2]
    _ = lexFinalize ((stripL jsonWs cs ++
          (List.takeWhile jsonWs (cs.dropWhile jsonWs).reverse).reverse).foldl
          lexStep (LexState.betw [])) := by rw [List.foldl_append]
    _ = lexFinalize ((cs.dropWhile jsonWs).foldl lexStep (LexState.betw [])) := by rw [← e1]
    _ = lexFinalize ((cs.dropWhile jsonWs).foldl lexStep
          ((cs.takeWhile jsonWs).foldl lexStep (LexState.betw []))) := by
        rw [foldl_lexStep_betw_ws _ _ hws1]
    _ = lexFinalize ((cs.takeWhile jsonWs ++ cs.dropWhile jsonWs).foldl
          lexStep (LexState.betw [])) := by rw [List.foldl_append]
    _ = lexFinalize (cs.foldl lexStep (LexState.betw [])) := by
        rw [List.takeWhile_append_dropWhile]

/-- `json.loads` is unaffected by stripping surrounding JSON whitespace. -/
theorem jsonLoads_strip (s : String) : jsonLoads (jsonStrip s) = jsonLoads s := by
  unfold jsonLoads jsonStrip
  show (match lexJson (stripL jsonWs s.data) with
        | Except.error e => Except.error e
        | Except.ok toks => parseToks toks) = _
  rw [lexJson_strip]

theorem startsWithL_self_append (p rest : List Char) : startsWithL p (p ++ rest) = true := by
  induction p with
  | nil => rfl
  | cons c cs ih => simp [startsWithL, ih]

/-- Stripping a reply of the exact form ```` ```json<s>``` ```` yields
`s.strip()`. -/
theorem stripFence_fenceWrap (s : String) : stripFence (fenceWrap s) = pyStrip s := by
  unfold stripFence fenceWrap
  have hdata : ("```json" ++ s ++ "```").data = fenceOpen ++ s.data ++ fenceClose := by
    rw [String.data_append, String.data_append]
    rfl
  rw [hdata]
  have h1 : startsWithL fenceOpen (fenceOpen ++ s.data ++ fenceClose) = true := by
    rw [List.append_assoc]
    exact startsWithL_self_append _ _
  have h2 : endsWithL fenceClose (fenceOpen ++ s.data ++ fenceClose) = true := by
    unfold endsWithL
    rw [List.reverse_append]
    exact startsWithL_self_append _ _
  rw [h1, h2]
  have h3 : (fenceOpen ++ s.data ++ fenceClose).drop 7 = s.data ++ fenceClose := by
    rw [List.append_assoc]
    have h7 : fenceOpen.length = 7 := rfl
    rw [← h7, List.drop_left]
  have h4 : dropEndN 3 (s.data ++ fenceClose) = s.data := by
    unfold dropEndN
    have hl : (s.data ++ fenceClose).length = s.data.length + 3 := by
      simp [fenceClose]
    rw [hl, Nat.add_sub_cancel, List.take_left]
  simp only [Bool.and_self, if_true]
  rw [h3, h4]

/-- A text whose first character is an opening brace is not fenced, so the
stripping statement leaves it unchanged. -/
theorem stripFence_no_fence (s : String) (h : s.data.head? = some '\x7b') :
    stripFence s = s := by
  unfold stripFence
  cases hd : s.data with
  | nil => rw [hd] at h; exact absurd h (by simp)
  | cons c cs =>
    rw [hd] at h
    have hc : c = '\x7b' := by simpa using h
    subst hc
    have h1 : startsWithL fenceOpen ('\x7b' :: cs) = false := rfl
    rw [h1, Bool.false_and]
    rfl

/- ### Claims about the Extractor's reply handling -/


/-- C7: for a model reply that is a JSON object wrapped in a ```json code
fence, the fence-stripping statement removes exactly the fence markers and
the surrounding whitespace; parsing the stripped text yields the same
object as parsing the unfenced text directly; and applying the stripping
statement to the already-stripped text changes nothing.  (The hypotheses
say the inner text is a JSON object — it parses to an object and starts,
after stripping, with a brace — and that its surrounding whitespace is
JSON whitespace, i.e. spaces/tabs/newlines.) -/
theorem extract_fence_normalization (s : String) (fields : List (String × PyVal))
    (hws : pyStrip s = jsonStrip s)
    (hobj : jsonLoads s = Except.ok (PyVal.dict fields))
    (hbrace : (pyStrip s).data.head? = some '\x7b') :
    stripFence (fenceWrap s) = pyStrip s ∧
    jsonLoads (stripFence (fenceWrap s)) = Except.ok (PyVal.dict fields) ∧
    stripFence (pyStrip s) = pyStrip s := by
  have h1 := stripFence_fenceWrap s
  refine ⟨h1, ?_, stripFence_no_fence _ hbrace⟩
  rw [h1, hws, jsonLoads_strip, hobj]

theorem extract_fence_normalization_witness :
    (pyStrip fencedReplyBody = jsonStrip fencedReplyBody ∧
     jsonLoads fencedReplyBody = Except.ok (PyVal.dict [("a", PyVal.int 1)]) ∧
     (pyStrip fencedReplyBody).data.head? = some '\x7b') ∧
    (stripFence (fenceWrap fencedReplyBody) = pyStrip fencedReplyBody ∧
     jsonLoads (stripFence (fenceWrap fencedReplyBody)) =
       Except.ok (PyVal.dict [("a", PyVal.int 1)]) ∧
     stripFence (pyStrip fencedReplyBody) = pyStrip fencedReplyBody) :=
  ⟨⟨rfl, rfl, rfl⟩,
   extract_fence_normalization fencedReplyBody [("a", PyVal.int 1)] rfl rfl rfl⟩

/-- C8: when the reply text, after fence stripping, is not valid JSON,
`process_image` raises (an `HTTPException` with status 500, the `detail`
carrying the cause) and never instead returns a parsed record as a
fallback. -/
theorem extract_malformed_raises (answer : String)
    (h : jsonLoads (stripFence answer) = Except.error ()) :
    process_image_reply answer = ExtractResult.httpError 500 ∧
    ∀ v, process_image_reply answer ≠ ExtractResult.ok v := by
  unfold process_image_reply
  rw [h]
  exact ⟨rfl, fun v hv => ExtractResult.noConfusion hv⟩

theorem extract_malformed_raises_witness :
    jsonLoads (stripFence "not json at all") = Except.error () ∧
    process_image_reply "not json at all" = ExtractResult.httpError 500 :=
  ⟨rfl, (extract_malformed_raises "not json at all" rfl).1⟩

/-- C9 fails on the code: the reply `"[1, 2]"` is valid JSON but not an
object, yet `process_image` raises nothing — `json.loads` returns the list
and `process_image` returns it as the extraction result, since the code has
no object-shape check after parsing. -/
theorem extract_nonobject_counterexample :
    process_image_reply "[1, 2]" = ExtractResult.ok (PyVal.list [PyVal.int 1, PyVal.int 2]) := rfl

/-- C9 (amended): `process_image` performs no object check on the parsed
reply: any reply whose post-strip text parses as valid JSON — object or not
— is returned unchanged as the extraction result; only invalid JSON makes
it raise. -/
theorem extract_returns_any_valid (answer : String) (v : PyVal)
    (h : jsonLoads (stripFence answer) = Except.ok v) :
    process_image_reply answer = ExtractResult.ok v := by
  unfold process_image_reply
  rw [h]

theorem extract_returns_any_valid_witness :
    jsonLoads (stripFence "42") = Except.ok (PyVal.int 42) ∧
    process_image_reply "42" = ExtractResult.ok (PyVal.int 42) :=
  ⟨rfl, extract_returns_any_valid "42" (PyVal.int 42) rfl⟩

theorem hfold_frame (newRef : Nat) (records : List HRecord)
    (st : List (List PyVal) × HCombined) (i : Nat) (hi : i ≠ newRef) :
    ((records.foldl (hStep newRef) st).1)[i]? = (st.1)[i]? := by
  induction records generalizing st with
  | nil => rfl
  | cons r rs ih =>
    rw [List.foldl_cons, ih]
    show (extendCell st.1 newRef _)[i]? = (st.1)[i]?
    unfold extendCell
    exact List.getElem?_set_ne (fun h => hi h.symm)

/-- C10: `combine_json_outputs` leaves every input record unchanged.  In
the heap model, every pre-existing list object — in particular every input
record's `items` list — holds exactly the same value after the loop as
before it; only the freshly allocated cell of the combined record is
written.  (The input records themselves are values here; the heap carries
the only state Python could mutate.) -/
theorem combine_heap_frame (cells : List (List PyVal)) (records : List HRecord)
    (i : Nat) (hi : i < cells.length) :
    ((combine_json_outputs_heap cells records).1)[i]? = cells[i]? := by
  unfold combine_json_outputs_heap
  rw [hfold_frame _ _ _ i (Nat.ne_of_lt hi)]
  exact List.getElem?_append_left hi

theorem combine_heap_frame_witness :
    (0 < witnessCells.length ∧
      ((combine_json_outputs_heap witnessCells witnessHRecords).1)[0]? = witnessCells[0]?) ∧
    (1 < witnessCells.length ∧
      ((combine_json_outputs_heap witnessCells witnessHRecords).1)[1]? = witnessCells[1]?) :=
  ⟨⟨by decide, combine_heap_frame witnessCells witnessHRecords 0 (by decide)⟩,
   ⟨by decide, combine_heap_frame witnessCells witnessHRecords 1 (by decide)⟩⟩

/-- The heap model computes the same combined record as the pure embedding:
reading each heap record back as a plain record (via `toReceipt`) and
running `combine_json_outputs` gives exactly the field values and final
`items` cell content the heap loop produces.  (Hypothesis: records point at
cells that exist.) -/
theorem combine_heap_agrees (cells : List (List PyVal)) (records : List HRecord)
    (hv : ∀ r ∈ records, ∀ i, r.itemsRef = some i → i < cells.length) :
    combine_json_outputs (records.map (toReceipt cells)) =
      Except.ok
        { date := (combine_json_outputs_heap cells records).2.date,
          location := (combine_json_outputs_heap cells records).2.location,
          items := ((combine_json_outputs_heap cells records).1).getD
            (combine_json_outputs_heap cells records).2.itemsRef [],
          total_amount := (combine_json_outputs_heap cells records).2.total_amount } := by
  unfold combine_json_outputs combine_json_outputs_heap
  have main : ∀ (rs : List HRecord), (∀ r ∈ rs, ∀ i, r.itemsRef = some i → i < cells.length) →
      ∀ (acc : CombinedRecord) (hst : List (List PyVal) × HCombined),
      acc.date = hst.2.date → acc.location = hst.2.location →
      acc.total_amount = hst.2.total_amount →
      hst.2.itemsRef = cells.length →
      hst.1[cells.length]? = some acc.items →
      (∀ i, i < cells.length → hst.1[i]? = cells[i]?) →
      List.foldlM combineStep acc (rs.map (toReceipt cells)) =
        Except.ok
          { date := (rs.foldl (hStep cells.length) hst).2.date,
            location := (rs.foldl (hStep cells.length) hst).2.location,
            items := ((rs.foldl (hStep cells.length) hst).1).getD
              ((rs.foldl (hStep cells.length) hst).2.itemsRef) [],
            total_amount := (rs.foldl (hStep cells.length) hst).2.total_amount } := by
    intro rs
    induction rs with
    | nil =>
      intro _ acc hst h1 h2 h3 h4 h5 _
      simp only [List.map_nil, List.foldlM, List.foldl_nil]
      have h7 : (hst.1.getD (hst.2.itemsRef) []) = acc.items := by
        rw [h4, List.getD_eq_getElem?_getD, h5]
        rfl
      rw [← h1, ← h2, ← h3, h7]
      rfl
    | cons r rs ih =>
      intro hvr acc hst h1 h2 h3 h4 h5 h6
      have hlen : cells.length < hst.1.length :=
        (List.getElem?_eq_some_iff.mp h5).choose
      -- the list contributed by this record is the same in both models
      have hxs : (match r.itemsRef with
            | some i => hst.1.getD i []
            | Option.none => []) =
          (match r.itemsRef with
            | some i => cells.getD i []
            | Option.none => ([] : List PyVal)) := by
        cases hri : r.itemsRef with
        | none => rfl
        | some i =>
          have hi : i < cells.length := hvr r (by simp) i hri
          show hst.1.getD i [] = cells.getD i []
          rw [List.getD_eq_getElem?_getD, List.getD_eq_getElem?_getD, h6 i hi]
      -- the pure step succeeds and matches
      have hstep : combineStep acc (toReceipt cells r) =
          Except.ok
            { date := firstWriteUpd acc.date (getKey r.date),
              location := firstWriteUpd acc.location (getKey r.location),
              items := acc.items ++ (match r.itemsRef with
                | some i => cells.getD i []
                | Option.none => []),
              total_amount := lastWriteUpd acc.total_amount (getKey r.total_amount) } := by
        unfold combineStep toReceipt
        cases hri : r.itemsRef with
        | none => rfl
        | some i => rfl
      simp only [List.map_cons, List.foldlM, hstep, List.foldl_cons]
      simp only [bind, Except.bind]
      apply ih (fun q hq => hvr q (by simp [hq]))
      · show firstWriteUpd acc.date (getKey r.date) =
          firstWriteUpd hst.2.date (getKey r.date)
        rw [h1]
      · show firstWriteUpd acc.location (getKey r.location) =
          firstWriteUpd hst.2.location (getKey r.location)
        rw [h2]
      · show lastWriteUpd acc.total_amount (getKey r.total_amount) =
          lastWriteUpd hst.2.total_amount (getKey r.total_amount)
        rw [h3]
      · rfl
      · show (extendCell hst.1 cells.length _)[cells.length]? = _
        unfold extendCell
        rw [List.getElem?_set_self hlen]
        have h7 : hst.1.getD cells.length [] = acc.items := by
          rw [List.getD_eq_getElem?_getD, h5]
          rfl
        rw [h7, hxs]
      · intro i hi
        show (extendCell hst.1 cells.length _)[i]? = cells[i]?
        unfold extendCell
        rw [List.getElem?_set_ne (Nat.ne_of_lt hi).symm]
        exact h6 i hi
  apply main records hv
  · rfl
  · rfl
  · rfl
  · rfl
  · rw [List.getElem?_append_right (Nat.le_refl _)]
    simp [emptyCombined]
  · intro i hi
    exact List.getElem?_append_left hi
